import Mathlib

/-!
# Verification of the mouse-ran-down dispatch-and-delivery core

A shallow embedding, in Lean 4, of the pure decision logic of the
`mouse_ran_down` package (files `sending.py` and `link_handling.py`):

* the batching engine `LootSender.batch_loot_items`,
* the file classifier `LootSender.path_is_type`,
* the individual / grouped send planning
  (`send_loot_items_individually`, `send_loot_items_as_media_group`,
  `send_potentially_collapsed_text`),
* the URL dispatcher (`get_url_handler`, `get_forced_url_handler`)
  and the probe `ytdlp_get_extensions`.

External collaborators are modelled as parameters:

* `guess : String → Option String` stands for Python's
  `mimetypes.guess_file_type(path, strict=False)[0]` (the result depends on
  the system's MIME tables, e.g. on whether mailcap is installed);
* `split : String → List String` stands for `telebot.util.smart_split`;
* `matched : PatternName → Bool` records, for one fixed URL, which of the
  configured regex patterns match it (`re.match` on an alternation of named
  patterns succeeds iff one of the named patterns matched);
* `extract : Bool → ExtractOutcome ε` stands for one yt-dlp
  `extract_info(url, download=False)` call, indexed by whether cookies are
  ignored.

Effectful send methods are embedded as pure planning functions that return
the list of outbound operations (`SendOp`) the Python code would perform.
-/

namespace MouseRanDown

/-! ## Generic list chunking

`itertools.batched(l, n, strict=False)` yields consecutive chunks of `l` of
length `n`, the last one possibly shorter.  (Python raises `ValueError` for
`n < 1`; the embedding is total and is only ever used with `1 ≤ n`.) -/

/-- Consecutive chunks of at most `n` elements (for `1 ≤ n`), in order:
the embedding of `itertools.batched(l, n, strict=False)`. -/
def batched (n : Nat) : List α → List (List α)
  | [] => []
  | x :: xs => (x :: xs.take (n - 1)) :: batched n (xs.drop (n - 1))
termination_by l => l.length
decreasing_by
  simp only [List.length_drop, List.length_cons]
  omega

/-! ## The data model of `sending.py` -/

/-- The four loot kinds (`LootType` in `sending.py`). -/
inductive LootType
  | video
  | audio
  | image
  | text
deriving DecidableEq, Repr

/-- `LootItems`: video, audio, image, and text items downloaded from URLs.
Media items have some opaque payload type `α` (`InputFile` in the source);
text items are the strings read from text files. -/
structure LootItems (α : Type) where
  video : List α
  audio : List α
  image : List α
  text : List String
deriving DecidableEq, Repr

/-- A `LootItems` dict whose four lists are empty
(`{'video': [], 'image': [], 'text': [], 'audio': []}`). -/
def emptyLoot : LootItems α :=
  { video := [], audio := [], image := [], text := [] }

/-! ## The batching engine (`LootSender.batch_loot_items`) -/

/-- The list
`[(filetype, media_item) for filetype in ('video', 'image') for media_item in loot_items[filetype]]`:
all video items (tagged), then all image items (tagged). -/
def media_items_of (loot : LootItems α) : List (LootType × α) :=
  loot.video.map (fun v => (LootType.video, v))
    ++ loot.image.map (fun i => (LootType.image, i))

/-- One media batch: the items of one chunk, appended to the `video` /
`image` list matching their tag, in chunk order. -/
def mediaChunkBatch (chunk : List (LootType × α)) : LootItems α :=
  { video := (chunk.filter fun p => p.1 == LootType.video).map Prod.snd
    audio := []
    image := (chunk.filter fun p => p.1 == LootType.image).map Prod.snd
    text := [] }

/-- One audio batch: a chunk of audio items in a batch of their own. -/
def audioChunkBatch (chunk : List α) : LootItems α :=
  { video := [], audio := chunk, image := [], text := [] }

/-- The batches accumulated by the two `batched` loops of
`batch_loot_items`: media (video+image) chunks, then audio chunks. -/
def raw_batches (n : Nat) (loot : LootItems α) : List (LootItems α) :=
  (batched n (media_items_of loot)).map mediaChunkBatch
    ++ (batched n loot.audio).map audioChunkBatch

/-- The batch list after the
`if not loot_items_batches and loot_items['text']` fixup, which appends one
empty batch so that text still gets carried. -/
def raw_batches_with_text_carrier (n : Nat) (loot : LootItems α) : List (LootItems α) :=
  if (raw_batches n loot).isEmpty && !loot.text.isEmpty then
    raw_batches n loot ++ [emptyLoot]
  else
    raw_batches n loot

/-- The embedding of `LootSender.batch_loot_items`: batch by max group size
and compatible formats, then append the blank-line join of all text items to
the first batch's text list (when any batch exists). -/
def batch_loot_items (n : Nat) (loot : LootItems α) : List (LootItems α) :=
  match raw_batches_with_text_carrier n loot with
  | [] => []
  | b :: bs => { b with text := b.text ++ [String.intercalate "\n\n" loot.text] } :: bs

/-! ## String helpers

Python's `str.startswith` / `str.endswith` and the pieces of
`telebot.formatting` used by the sender, modelled on character lists so that
all definitions reduce inside the kernel. -/

/-- `s.startswith(p)`. -/
def str_starts_with (s p : String) : Bool :=
  p.toList.isPrefixOf s.toList

/-- `s.endswith(p)`. -/
def str_ends_with (s p : String) : Bool :=
  p.toList.reverse.isPrefixOf s.toList.reverse

/-- `telebot.formatting.escape_html`: replace `&`, `<` and `>` by their
HTML entities. -/
def escape_html (s : String) : String :=
  String.mk (s.toList.flatMap fun c =>
    if c = '&' then "&amp;".toList
    else if c = '<' then "&lt;".toList
    else if c = '>' then "&gt;".toList
    else [c])

/-- `str_to_collapsed_quotation_html`: convert a string to an expandable
quotation HTML string. -/
def str_to_collapsed_quotation_html (s : String) : String :=
  "<blockquote expandable>" ++ escape_html s ++ "</blockquote>"

/-! ## The loot classifier (`LootSender.path_is_type`) -/

/-- The embedding of `LootSender.path_is_type`: `True` if the path has the
given file type.  `guess` stands for
`mimetypes.guess_file_type(path, strict=False)[0]`; when it yields nothing,
a path ending in `.description` counts as `'text'`; any other unidentified
path is logged and rejected for every type. -/
def path_is_type (guess : String → Option String) (path typestr : String) : Bool :=
  match guess path with
  | some filetype => str_starts_with filetype typestr
  | none =>
    if str_ends_with path ".description" then str_starts_with "text" typestr
    else false

/-- The type-name string each kind is matched against in
`send_potential_media_groups` (`'video'`, `'audio'`, `'image'`, `'text'`). -/
def lootTypeStr : LootType → String
  | .video => "video"
  | .audio => "audio"
  | .image => "image"
  | .text => "text"

/-- The kinds under which `send_potential_media_groups` would collect a
file with the given path: those `filetype` with `path_is_type p filetype`. -/
def loot_kinds (guess : String → Option String) (path : String) : List LootType :=
  [LootType.video, LootType.audio, LootType.image, LootType.text].filter
    fun t => path_is_type guess path (lootTypeStr t)

/-! ## Send planning (`send_loot_items_individually` and friends)

The `LootSender.send_*` methods perform Telegram calls; the embedding
computes the list of outbound operations such a call sequence consists of. -/

/-- The chat actions of `Action` in `sending.py`. -/
inductive ChatAction
  | typing
  | record_video
  | record_voice
  | upload_voice
  | upload_video
  | upload_photo
deriving DecidableEq, Repr

/-- `LOOT_ACTION`/`loot_action`: the status action sent before uploading
each kind. -/
def loot_action : LootType → ChatAction
  | .video => .upload_video
  | .audio => .upload_voice
  | .image => .upload_photo
  | .text => .typing

/-- One outbound operation of a send plan.

* `action a`: a `send_chat_action` call;
* `media t item cap`: an individual `send_video`/`send_audio`/`send_photo`
  call for one item, where `cap = some (text, collapsed)` records the
  `caption` parameter before wrapping (`collapsed = true` means the caption
  was passed as `str_to_collapsed_quotation_html text` with
  `parse_mode='HTML'`) and `cap = none` means no caption;
* `textMsg content collapsed`: a `send_message` reply whose text is
  `content`, wrapped as a collapsed quotation with `parse_mode='HTML'` when
  `collapsed = true`. -/
inductive SendOp (α : Type)
  | action (a : ChatAction)
  | media (t : LootType) (item : α) (cap : Option (String × Bool))
  | textMsg (content : String) (collapsed : Bool)
deriving DecidableEq, Repr

/-- The literal text of a `textMsg` operation as it goes out on the wire,
after the optional collapse wrapper is applied. -/
def SendOp.wire_text : SendOp α → Option String
  | .textMsg content collapsed =>
    some (if collapsed then str_to_collapsed_quotation_html content else content)
  | _ => none

/-- The embedding of `LootSender.send_potentially_collapsed_text`: split the
text with `smart_split`, and send each piece, collapsed (with HTML parse
mode) whenever its length reaches `collapse_at`. -/
def send_potentially_collapsed_text (split : String → List String)
    (collapse_at : Nat) (text : String) : List (SendOp α) :=
  (split text).map fun txt =>
    SendOp.textMsg txt (decide (collapse_at ≤ txt.length))

/-- The embedding of `LootSender.send_loot_items_individually`.

The caption parameter is computed first: when there is exactly one media
item and there are text items whose blank-line join fits in
`max_caption` characters, the join becomes the item's caption (collapsed
when its length reaches `collapse_at`) and the text items are dropped from
the dict.  Then every remaining item is sent individually, in the dict
insertion order of the batches built by `batch_loot_items`
(`video`, `image`, `text`, `audio`), each preceded by its status action. -/
def send_loot_items_individually (split : String → List String)
    (collapse_at max_caption : Nat) (loot : LootItems α) : List (SendOp α) :=
  let joined := String.intercalate "\n\n" loot.text
  let captioned :=
    loot.video.length + loot.image.length + loot.audio.length = 1
      ∧ loot.text ≠ [] ∧ joined.length ≤ max_caption
  let cap : Option (String × Bool) :=
    if captioned then some (joined, decide (collapse_at ≤ joined.length)) else none
  let texts := if captioned then [] else loot.text
  (loot.video.map fun v => [SendOp.action (loot_action .video), SendOp.media .video v cap]).flatten
    ++ (loot.image.map fun i =>
        [SendOp.action (loot_action .image), SendOp.media .image i cap]).flatten
    ++ (texts.map fun t =>
        SendOp.action (loot_action .text)
          :: send_potentially_collapsed_text split collapse_at t).flatten
    ++ (loot.audio.map fun a =>
        [SendOp.action (loot_action .audio), SendOp.media .audio a cap]).flatten

/-! ## Grouped sends (`send_loot_items_as_media_group`) -/

/-- An element of an outbound media group: `InputMediaPhoto`,
`InputMediaVideo` or `InputMediaAudio` around a payload. -/
inductive InputMedia (α : Type)
  | photo (item : α)
  | video (item : α)
  | audio (item : α)
deriving DecidableEq, Repr

/-- The media-group list built by `send_loot_items_as_media_group`:
`[InputMediaPhoto(img) for img in image] + [InputMediaVideo(vid) for vid in video]
 + [InputMediaAudio(aud) for aud in audio]`. -/
def media_group_of (loot : LootItems α) : List (InputMedia α) :=
  loot.image.map InputMedia.photo
    ++ loot.video.map InputMedia.video
    ++ loot.audio.map InputMedia.audio

/-- The payload of a photo group member. -/
def InputMedia.photoItem : InputMedia α → Option α
  | .photo a => some a
  | _ => none

/-- The payload of a video group member. -/
def InputMedia.videoItem : InputMedia α → Option α
  | .video a => some a
  | _ => none

/-- The payload of an audio group member. -/
def InputMedia.audioItem : InputMedia α → Option α
  | .audio a => some a
  | _ => none

/-- The position of a member's kind in the order the group is assembled:
photos, then videos, then audios. -/
def InputMedia.kindRank : InputMedia α → Nat
  | .photo _ => 0
  | .video _ => 1
  | .audio _ => 2

/-! ## The URL dispatcher (`link_handling.py`) -/

/-- The named URL patterns of `LinkHandlers.patterns`. -/
inductive PatternName
  | tiktok
  | x
  | bluesky
  | insta
  | vreddit
  | reddit
  | youtube
  | vimeo
  | soundcloud
  | bandcamp
deriving DecidableEq, Repr

/-- The handlers `get_url_handler` / `get_forced_url_handler` can return.
`ytdlp_url_handler` is the spec's VideoHandler, `ytdlp_url_handler_audio`
its audio variant, `gallerydl_url_handler` the GenericHandler, and
`insta_url_handler` the SocialNetworkHandler. -/
inductive Handler
  | insta_url_handler
  | ytdlp_url_handler
  | ytdlp_url_handler_audio
  | gallerydl_url_handler
deriving DecidableEq, Repr

/-- `LinkHandlers.matches_any(url, *names)` for one fixed URL: `re.match`
against the `'|'`-join of the named patterns succeeds iff one of the named
patterns matched, where `matched` records which patterns match the URL. -/
def matches_any (matched : PatternName → Bool) (names : List PatternName) : Bool :=
  names.any matched

/-- `ft.split('/', 1)[0]` applied to `guess_file_type(f"file.{e}")[0]` in
`get_forced_url_handler`: the MIME family of an extension, or the raw
extension when the MIME type cannot be guessed. -/
def mime_family (guess : String → Option String) (e : String) : String :=
  match guess ("file." ++ e) with
  | some ft => String.mk (ft.toList.takeWhile fun c => c ≠ '/')
  | none => e

/-- The embedding of `LinkHandlers.get_forced_url_handler`, as a function of
the probe's result `extensions` (`ytdlp_get_extensions(url)`): when the
probe found extensions, map each to its MIME family and pick
`ytdlp_url_handler_audio` when `'audio'` is among the families and
`'video'` is not, else `ytdlp_url_handler`; when the probe found nothing,
fall back to `gallerydl_url_handler`. -/
def get_forced_url_handler (guess : String → Option String)
    (extensions : List String) : Handler :=
  if extensions.isEmpty then
    Handler.gallerydl_url_handler
  else
    let media := extensions.map (mime_family guess)
    if ¬ "video" ∈ media ∧ "audio" ∈ media then Handler.ytdlp_url_handler_audio
    else Handler.ytdlp_url_handler

/-- The embedding of `LinkHandlers.get_url_handler`, as a function of the
pattern-match results for the URL and of the probe result that
`get_forced_url_handler` would use on the ambiguous branch. -/
def get_url_handler (matched : PatternName → Bool) (guess : String → Option String)
    (extensions : List String) : Option Handler :=
  if matches_any matched [.insta] then
    some Handler.insta_url_handler
  else if matches_any matched [.tiktok, .vreddit, .youtube, .vimeo] then
    some Handler.ytdlp_url_handler
  else if matches_any matched [.x, .reddit, .bluesky] then
    some (get_forced_url_handler guess extensions)
  else if matches_any matched [.soundcloud, .bandcamp] then
    some Handler.ytdlp_url_handler_audio
  else
    none

/-! ## The probe (`LinkHandlers.ytdlp_get_extensions`) -/

/-- The outcome of one `YoutubeDL.extract_info(url, download=False)` call:
an info dict (`some fmts`, carrying the `ext` of each entry of
`info['formats']`), a falsy info (`ok none`), the well-known
`DownloadError` (`notFound`), or any other raised error (`failure e`). -/
inductive ExtractOutcome (ε : Type)
  | ok (info : Option (List String))
  | notFound
  | failure (e : ε)

/-- The embedding of `LinkHandlers.ytdlp_get_extensions`.  `extract b` is
the backend call with cookies ignored iff `b`; `hasCookies` is whether a
cookie jar is configured.  On `DownloadError` with cookies in use, the
probe retries once without cookies; with no (further) cookie retry
available it returns the empty list.  Other errors propagate (`Except.error`).
The extension set `[*{f['ext'] for f in info['formats']}]` is modelled as
`List.dedup`. -/
def ytdlp_get_extensions (hasCookies : Bool) (extract : Bool → ExtractOutcome ε)
    (ignoreCookies : Bool) : Except ε (List String) :=
  match extract ignoreCookies with
  | .failure e => Except.error e
  | .ok (some fmts) => Except.ok fmts.dedup
  | .ok none => Except.ok []
  | .notFound =>
    if !ignoreCookies && hasCookies then
      ytdlp_get_extensions hasCookies extract true
    else
      Except.ok []
termination_by (if ignoreCookies then 0 else 1)
decreasing_by
  rename_i h
  simp only [Bool.and_eq_true, Bool.not_eq_true'] at h
  simp [h.1]

/-! ## Projections of send plans -/

/-- The pre-wrap contents of the standalone text messages of a plan, in
order. -/
def textContents (plan : List (SendOp α)) : List String :=
  plan.filterMap fun op =>
    match op with
    | .textMsg content _ => some content
    | _ => none

/-- The caption parameters of the individual media sends of a plan, in
order. -/
def mediaCaptions (plan : List (SendOp α)) : List (Option (String × Bool)) :=
  plan.filterMap fun op =>
    match op with
    | .media _ _ cap => some cap
    | _ => none

/-! ## A concrete MIME oracle for witnesses

A fragment of the stock CPython `mimetypes` table (no mailcap installed),
used to instantiate the `guess` parameter on concrete inputs.  Keys are
whole paths or bare extensions as queried by the two call sites
(`path_is_type` passes a path, `get_forced_url_handler` passes `file.{e}`;
here the table only inspects the suffix). -/

/-- A fragment of CPython's built-in `mimetypes.types_map`, keyed by the
path suffix (stock table: it has no entry for `.mkv` or `.description`). -/
def py_guess_file_type (path : String) : Option String :=
  if str_ends_with path ".mp4" then some "video/mp4"
  else if str_ends_with path ".webm" then some "video/webm"
  else if str_ends_with path ".mp3" then some "audio/mpeg"
  else if str_ends_with path ".jpg" then some "image/jpeg"
  else if str_ends_with path ".png" then some "image/png"
  else if str_ends_with path ".gif" then some "image/gif"
  else if str_ends_with path ".txt" then some "text/plain"
  else none

end MouseRanDown

namespace MouseRanDown

/-! # Theorems

## Chunking lemmas -/

/-- The chunks of `batched` concatenate back to the original list. -/
theorem batched_flatten (n : Nat) : (l : List α) → (batched n l).flatten = l
  | [] => by simp [batched]
  | x :: xs => by
    simp only [batched, List.flatten_cons, batched_flatten n (xs.drop (n - 1))]
    simp [List.take_append_drop]
termination_by l => l.length
decreasing_by
  simp only [List.length_drop, List.length_cons]
  omega

/-- For `1 ≤ n`, every chunk of `batched n` has at most `n` elements. -/
theorem length_le_of_mem_batched {n : Nat} (hn : 1 ≤ n) :
    (l : List α) → ∀ c ∈ batched n l, c.length ≤ n
  | [] => by simp [batched]
  | x :: xs => by
    intro c hc
    simp only [batched, List.mem_cons] at hc
    rcases hc with rfl | hc
    · have := Nat.min_le_left (n - 1) xs.length
      simp only [List.length_cons, List.length_take]
      omega
    · exact length_le_of_mem_batched hn (xs.drop (n - 1)) c hc
termination_by l => l.length
decreasing_by
  simp only [List.length_drop, List.length_cons]
  omega

/-- Elements of a chunk come from the chunked list. -/
theorem mem_of_mem_batched {n : Nat} {l c : List α} (hc : c ∈ batched n l) :
    ∀ x ∈ c, x ∈ l := by
  intro x hx
  rw [← batched_flatten n l]
  exact List.mem_flatten.mpr ⟨c, hc, hx⟩

/-! ## Structure of the produced batches -/

/-- Every pair in `media_items_of` is tagged `video` or `image`. -/
theorem tag_of_mem_media_items {loot : LootItems α} {p : LootType × α}
    (hp : p ∈ media_items_of loot) :
    p.1 = LootType.video ∨ p.1 = LootType.image := by
  unfold media_items_of at hp
  rcases List.mem_append.mp hp with h | h <;> obtain ⟨a, _, rfl⟩ := List.mem_map.mp h
  · exact Or.inl rfl
  · exact Or.inr rfl

/-- On a list of pairs tagged `video` or `image`, the two tag filters
partition the list. -/
theorem filter_tags_length {c : List (LootType × α)}
    (h : ∀ p ∈ c, p.1 = LootType.video ∨ p.1 = LootType.image) :
    (c.filter fun p => p.1 == LootType.video).length
      + (c.filter fun p => p.1 == LootType.image).length = c.length := by
  induction c with
  | nil => simp
  | cons hd tl ih =>
    have htl := ih fun p hp => h p (List.mem_cons_of_mem _ hp)
    rcases h hd (List.mem_cons_self _ _) with h1 | h1 <;>
      simp [List.filter_cons, h1, htl] <;> omega

/-- Every batch in `raw_batches` is a media-chunk batch or an
audio-chunk batch. -/
theorem mem_raw_batches {n : Nat} {loot : LootItems α} {b : LootItems α}
    (hb : b ∈ raw_batches n loot) :
    (∃ c ∈ batched n (media_items_of loot), b = mediaChunkBatch c)
      ∨ (∃ c ∈ batched n loot.audio, b = audioChunkBatch c) := by
  unfold raw_batches at hb
  rcases List.mem_append.mp hb with h | h
  · obtain ⟨c, hc, rfl⟩ := List.mem_map.mp h
    exact Or.inl ⟨c, hc, rfl⟩
  · obtain ⟨c, hc, rfl⟩ := List.mem_map.mp h
    exact Or.inr ⟨c, hc, rfl⟩

/-- Every batch in `raw_batches_with_text_carrier` is a raw batch or the
extra empty text-carrier batch. -/
theorem mem_raw_batches_with_text_carrier {n : Nat} {loot : LootItems α} {b : LootItems α}
    (hb : b ∈ raw_batches_with_text_carrier n loot) :
    b ∈ raw_batches n loot ∨ b = emptyLoot := by
  unfold raw_batches_with_text_carrier at hb
  by_cases hcond : ((raw_batches n loot).isEmpty && !loot.text.isEmpty) = true
  · rw [if_pos hcond] at hb
    rcases List.mem_append.mp hb with h | h
    · exact Or.inl h
    · exact Or.inr (List.mem_singleton.mp h)
  · rw [if_neg hcond] at hb
    exact Or.inl hb

/-- Every batch produced before the text fixup has an empty text list. -/
theorem text_of_mem_raw_batches_with_text_carrier {n : Nat} {loot : LootItems α}
    {b : LootItems α} (hb : b ∈ raw_batches_with_text_carrier n loot) :
    b.text = [] := by
  rcases mem_raw_batches_with_text_carrier hb with h | rfl
  · rcases mem_raw_batches h with ⟨c, _, rfl⟩ | ⟨c, _, rfl⟩
    · rfl
    · rfl
  · rfl

/-- Every final batch carries the media lists of some batch of
`raw_batches_with_text_carrier` (only the text list is ever touched by the
fixup that attaches the joined text to the first batch). -/
theorem mem_batch_loot_items {n : Nat} {loot : LootItems α} {b : LootItems α}
    (hb : b ∈ batch_loot_items n loot) :
    ∃ b' ∈ raw_batches_with_text_carrier n loot,
      b.video = b'.video ∧ b.audio = b'.audio ∧ b.image = b'.image := by
  unfold batch_loot_items at hb
  rcases h : raw_batches_with_text_carrier n loot with _ | ⟨c, cs⟩
  · rw [h] at hb
    simp at hb
  · rw [h] at hb
    rcases List.mem_cons.mp hb with rfl | hmem
    · exact ⟨c, by simp [h], rfl, rfl, rfl⟩
    · exact ⟨b, by simp [h, hmem], rfl, rfl, rfl⟩

/-- Filtering then mapping inside the chunks and flattening is filtering
then mapping the flattened list. -/
theorem flatten_map_filter_map (p : β → Bool) (g : β → γ) (L : List (List β)) :
    (L.map fun c => (c.filter p).map g).flatten = (L.flatten.filter p).map g := by
  induction L with
  | nil => simp
  | cons c cs ih => simp [List.filter_append, ih]

/-- Flattening constantly-empty lists gives the empty list. -/
theorem flatten_map_const_nil (L : List β) :
    (L.map fun _ => ([] : List γ)).flatten = [] := by
  induction L <;> simp_all

/-- The video-tagged pairs of `media_items_of`, projected, are the video
items. -/
theorem filter_video_media_items (loot : LootItems α) :
    (((media_items_of loot).filter fun p => p.1 == LootType.video).map Prod.snd)
      = loot.video := by
  unfold media_items_of
  rw [List.filter_append]
  have h1 : ((loot.video.map fun v => (LootType.video, v)).filter
      fun p => p.1 == LootType.video) = loot.video.map fun v => (LootType.video, v) :=
    List.filter_eq_self.mpr fun a ha => by
      obtain ⟨v, _, rfl⟩ := List.mem_map.mp ha
      rfl
  have h2 : ((loot.image.map fun i => (LootType.image, i)).filter
      fun p => p.1 == LootType.video) = [] := by
    rw [List.filter_eq_nil_iff]
    intro a ha
    obtain ⟨v, _, rfl⟩ := List.mem_map.mp ha
    simp
  rw [h1, h2, List.append_nil, List.map_map]
  simp

/-- The image-tagged pairs of `media_items_of`, projected, are the image
items. -/
theorem filter_image_media_items (loot : LootItems α) :
    (((media_items_of loot).filter fun p => p.1 == LootType.image).map Prod.snd)
      = loot.image := by
  unfold media_items_of
  rw [List.filter_append]
  have h1 : ((loot.video.map fun v => (LootType.video, v)).filter
      fun p => p.1 == LootType.image) = [] := by
    rw [List.filter_eq_nil_iff]
    intro a ha
    obtain ⟨v, _, rfl⟩ := List.mem_map.mp ha
    simp
  have h2 : ((loot.image.map fun i => (LootType.image, i)).filter
      fun p => p.1 == LootType.image) = loot.image.map fun i => (LootType.image, i) :=
    List.filter_eq_self.mpr fun a ha => by
      obtain ⟨v, _, rfl⟩ := List.mem_map.mp ha
      rfl
  rw [h1, h2, List.nil_append, List.map_map]
  simp

/-- The video items of the raw batches, concatenated, are the input video
items. -/
theorem raw_video_flatten (n : Nat) (loot : LootItems α) :
    ((raw_batches n loot).map LootItems.video).flatten = loot.video := by
  unfold raw_batches
  rw [List.map_append, List.flatten_append, List.map_map, List.map_map]
  have hm : (LootItems.video ∘ mediaChunkBatch (α := α))
      = fun c => (c.filter fun p => p.1 == LootType.video).map Prod.snd := rfl
  have ha : (LootItems.video ∘ audioChunkBatch (α := α)) = fun _ => [] := rfl
  rw [hm, ha, flatten_map_filter_map, batched_flatten, flatten_map_const_nil,
    List.append_nil, filter_video_media_items]

/-- The image items of the raw batches, concatenated, are the input image
items. -/
theorem raw_image_flatten (n : Nat) (loot : LootItems α) :
    ((raw_batches n loot).map LootItems.image).flatten = loot.image := by
  unfold raw_batches
  rw [List.map_append, List.flatten_append, List.map_map, List.map_map]
  have hm : (LootItems.image ∘ mediaChunkBatch (α := α))
      = fun c => (c.filter fun p => p.1 == LootType.image).map Prod.snd := rfl
  have ha : (LootItems.image ∘ audioChunkBatch (α := α)) = fun _ => [] := rfl
  rw [hm, ha, flatten_map_filter_map, batched_flatten, flatten_map_const_nil,
    List.append_nil, filter_image_media_items]

/-- The audio items of the raw batches, concatenated, are the input audio
items. -/
theorem raw_audio_flatten (n : Nat) (loot : LootItems α) :
    ((raw_batches n loot).map LootItems.audio).flatten = loot.audio := by
  unfold raw_batches
  rw [List.map_append, List.flatten_append, List.map_map, List.map_map]
  have hm : (LootItems.audio ∘ mediaChunkBatch (α := α)) = fun _ => [] := rfl
  have ha : (LootItems.audio ∘ audioChunkBatch (α := α)) = fun c => c := rfl
  rw [hm, ha, flatten_map_const_nil, List.nil_append, List.map_id', batched_flatten]

/-- The text-carrier fixup does not change the flattened value of any
projection that is empty on the empty batch. -/
theorem carrier_proj_flatten (n : Nat) (loot : LootItems α) (f : LootItems α → List γ)
    (hf : f emptyLoot = []) :
    ((raw_batches_with_text_carrier n loot).map f).flatten
      = ((raw_batches n loot).map f).flatten := by
  unfold raw_batches_with_text_carrier
  by_cases hcond : ((raw_batches n loot).isEmpty && !loot.text.isEmpty) = true
  · rw [if_pos hcond]
    simp [hf]
  · rw [if_neg hcond]

/-- Attaching the joined text to the first batch does not change the
flattened value of any projection untouched by a text update. -/
theorem batch_proj_flatten (n : Nat) (loot : LootItems α) (f : LootItems α → List γ)
    (hmod : ∀ (b : LootItems α) (s : String), f { b with text := b.text ++ [s] } = f b) :
    ((batch_loot_items n loot).map f).flatten
      = ((raw_batches_with_text_carrier n loot).map f).flatten := by
  unfold batch_loot_items
  rcases hpre : raw_batches_with_text_carrier n loot with _ | ⟨c, cs⟩
  · rfl
  · simp [hmod]

/-- When text items exist, the batch list is never empty (the text-carrier
fixup guarantees it). -/
theorem carrier_ne_nil_of_text {n : Nat} {loot : LootItems α} (ht : loot.text ≠ []) :
    raw_batches_with_text_carrier n loot ≠ [] := by
  unfold raw_batches_with_text_carrier
  by_cases hcond : ((raw_batches n loot).isEmpty && !loot.text.isEmpty) = true
  · rw [if_pos hcond]
    simp
  · rw [if_neg hcond]
    intro hnil
    rw [hnil] at hcond
    simp [List.isEmpty_iff] at hcond
    exact ht hcond

/-! ## Claim theorems for the batching engine -/

/-- **C2**: for every `LootItems` input and every batch produced by
`batch_loot_items` with group-size bound `n ≥ 1` (default 10), the batch
holds at most `n` media items, counting video, image and audio together and
not counting text. -/
theorem batch_size_invariant (n : Nat) (hn : 1 ≤ n) (loot : LootItems α) :
    ∀ b ∈ batch_loot_items n loot,
      b.video.length + b.image.length + b.audio.length ≤ n := by
  intro b hb
  obtain ⟨b', hb', hv, ha, hi⟩ := mem_batch_loot_items hb
  rw [hv, ha, hi]
  rcases mem_raw_batches_with_text_carrier hb' with h | heq
  · rcases mem_raw_batches h with ⟨c, hc, rfl⟩ | ⟨c, hc, rfl⟩
    · have htags : ∀ p ∈ c, p.1 = LootType.video ∨ p.1 = LootType.image :=
        fun p hp => tag_of_mem_media_items (mem_of_mem_batched hc p hp)
      have hlen := length_le_of_mem_batched hn _ c hc
      have hsplit := filter_tags_length htags
      simp only [mediaChunkBatch, List.length_map, List.length_nil]
      omega
    · have hlen := length_le_of_mem_batched hn _ c hc
      simp only [audioChunkBatch, List.length_nil]
      omega
  · rw [heq]
    simp only [emptyLoot, List.length_nil]
    omega

/-- Witness for `batch_size_invariant` at a concrete input: two videos and
one image produce a single batch with three media items. -/
theorem batch_size_invariant_witness :
    (1 ≤ 10
      ∧ (⟨[1, 2], [], [3], [""]⟩ : LootItems Nat)
          ∈ batch_loot_items 10 ⟨[1, 2], [], [3], []⟩)
      ∧ (⟨[1, 2], [], [3], [""]⟩ : LootItems Nat).video.length
          + (⟨[1, 2], [], [3], [""]⟩ : LootItems Nat).image.length
          + (⟨[1, 2], [], [3], [""]⟩ : LootItems Nat).audio.length ≤ 10 := by
  have hmem : (⟨[1, 2], [], [3], [""]⟩ : LootItems Nat)
      ∈ batch_loot_items 10 ⟨[1, 2], [], [3], []⟩ := by
    simp [batch_loot_items, raw_batches_with_text_carrier, raw_batches, media_items_of,
      batched, mediaChunkBatch,
      show String.intercalate "\n\n" ([] : List String) = "" from rfl]
  exact ⟨⟨by decide, hmem⟩,
    batch_size_invariant 10 (by decide) ⟨[1, 2], [], [3], []⟩ _ hmem⟩

/-- **C3**: no produced batch mixes audio with video or image: a batch with
audio items has empty video and image lists. -/
theorem type_separation (n : Nat) (loot : LootItems α) :
    ∀ b ∈ batch_loot_items n loot, b.audio ≠ [] → b.video = [] ∧ b.image = [] := by
  intro b hb hne
  obtain ⟨b', hb', hv, ha, hi⟩ := mem_batch_loot_items hb
  rcases mem_raw_batches_with_text_carrier hb' with h | heq
  · rcases mem_raw_batches h with ⟨c, hc, rfl⟩ | ⟨c, hc, rfl⟩
    · exact absurd ha hne
    · exact ⟨hv, hi⟩
  · rw [heq] at ha
    exact absurd ha hne

/-- Witness for `type_separation` at a concrete input: one audio item lands
in an audio-only batch. -/
theorem type_separation_witness :
    ((⟨[], [5], [], [""]⟩ : LootItems Nat) ∈ batch_loot_items 10 ⟨[], [5], [], []⟩
      ∧ (⟨[], [5], [], [""]⟩ : LootItems Nat).audio ≠ [])
      ∧ (⟨[], [5], [], [""]⟩ : LootItems Nat).video = []
      ∧ (⟨[], [5], [], [""]⟩ : LootItems Nat).image = [] := by
  have hmem : (⟨[], [5], [], [""]⟩ : LootItems Nat)
      ∈ batch_loot_items 10 ⟨[], [5], [], []⟩ := by
    simp [batch_loot_items, raw_batches_with_text_carrier, raw_batches, media_items_of,
      batched, audioChunkBatch,
      show String.intercalate "\n\n" ([] : List String) = "" from rfl]
  exact ⟨⟨hmem, by decide⟩,
    type_separation 10 ⟨[], [5], [], []⟩ _ hmem (by decide)⟩

/-- **C9**: whenever at least one batch is produced, the first batch's text
list is exactly one fragment, the blank-line join of all input text items
(the empty string when there are none), and all later batches have empty
text lists. -/
theorem first_batch_carries_text (n : Nat) (loot : LootItems α)
    (h : batch_loot_items n loot ≠ []) :
    ∃ b bs, batch_loot_items n loot = b :: bs
      ∧ b.text = [String.intercalate "\n\n" loot.text]
      ∧ ∀ b' ∈ bs, b'.text = [] := by
  unfold batch_loot_items at h ⊢
  rcases hpre : raw_batches_with_text_carrier n loot with _ | ⟨c, cs⟩
  · rw [hpre] at h
    simp at h
  · refine ⟨_, cs, rfl, ?_, ?_⟩
    · have hc : c.text = [] :=
        text_of_mem_raw_batches_with_text_carrier
          (hpre ▸ List.mem_cons_self c cs)
      simp [hc]
    · intro b' hb'
      exact text_of_mem_raw_batches_with_text_carrier
        (hpre ▸ List.mem_cons_of_mem c hb')

/-- Witness for `first_batch_carries_text` at a concrete input: one video
and two text items produce one batch whose text list is the single joined
fragment. -/
theorem first_batch_carries_text_witness :
    batch_loot_items 10 (⟨[7], [], [], ["a", "b"]⟩ : LootItems Nat) ≠ []
      ∧ ∃ b bs, batch_loot_items 10 (⟨[7], [], [], ["a", "b"]⟩ : LootItems Nat) = b :: bs
          ∧ b.text = [String.intercalate "\n\n" ["a", "b"]]
          ∧ ∀ b' ∈ bs, b'.text = [] := by
  have hne : batch_loot_items 10 (⟨[7], [], [], ["a", "b"]⟩ : LootItems Nat) ≠ [] := by
    unfold batch_loot_items
    rcases hpre : raw_batches_with_text_carrier 10 (⟨[7], [], [], ["a", "b"]⟩ : LootItems Nat)
      with _ | ⟨c, cs⟩
    · exact absurd hpre (carrier_ne_nil_of_text (by decide))
    · simp
  exact ⟨hne, first_batch_carries_text 10 ⟨[7], [], [], ["a", "b"]⟩ hne⟩

/-- **C4**: `batch_loot_items` neither loses nor duplicates items: the
concatenation of the batches' video (image, audio) lists is exactly the
input video (image, audio) list; when text items exist a batch always
exists to carry them; and the batches' text fragments, concatenated, are
exactly the single blank-line join of all input text items. -/
theorem batching_completeness (n : Nat) (loot : LootItems α) :
    ((batch_loot_items n loot).map LootItems.video).flatten = loot.video
      ∧ ((batch_loot_items n loot).map LootItems.image).flatten = loot.image
      ∧ ((batch_loot_items n loot).map LootItems.audio).flatten = loot.audio
      ∧ (loot.text ≠ [] → batch_loot_items n loot ≠ [])
      ∧ (batch_loot_items n loot ≠ [] →
          ((batch_loot_items n loot).map LootItems.text).flatten
            = [String.intercalate "\n\n" loot.text]) := by
  refine ⟨?_, ?_, ?_, ?_, ?_⟩
  · rw [batch_proj_flatten n loot LootItems.video fun b s => rfl,
      carrier_proj_flatten n loot LootItems.video rfl, raw_video_flatten]
  · rw [batch_proj_flatten n loot LootItems.image fun b s => rfl,
      carrier_proj_flatten n loot LootItems.image rfl, raw_image_flatten]
  · rw [batch_proj_flatten n loot LootItems.audio fun b s => rfl,
      carrier_proj_flatten n loot LootItems.audio rfl, raw_audio_flatten]
  · intro ht
    unfold batch_loot_items
    rcases hpre : raw_batches_with_text_carrier n loot with _ | ⟨c, cs⟩
    · exact absurd hpre (carrier_ne_nil_of_text ht)
    · simp
  · intro hne
    obtain ⟨b, bs, heq, hb, hbs⟩ := first_batch_carries_text n loot hne
    rw [heq]
    have hnil : ∀ l ∈ bs.map LootItems.text, l = [] := by
      intro l hl
      obtain ⟨b', hb', rfl⟩ := List.mem_map.mp hl
      exact hbs b' hb'
    simp only [List.map_cons, List.flatten_cons, hb]
    rw [List.flatten_eq_nil_iff.mpr hnil]
    simp

/-- Witness for `batching_completeness` at a concrete input: one video, one
audio and two text items; nothing is lost and the join is carried. -/
theorem batching_completeness_witness :
    batch_loot_items 10 (⟨[1], [2], [], ["a", "b"]⟩ : LootItems Nat) ≠ []
      ∧ ((batch_loot_items 10 (⟨[1], [2], [], ["a", "b"]⟩ : LootItems Nat)).map
          LootItems.video).flatten = [1]
      ∧ ((batch_loot_items 10 (⟨[1], [2], [], ["a", "b"]⟩ : LootItems Nat)).map
          LootItems.text).flatten = [String.intercalate "\n\n" ["a", "b"]] := by
  have h := batching_completeness 10 (⟨[1], [2], [], ["a", "b"]⟩ : LootItems Nat)
  have hne := h.2.2.2.1 (by decide)
  exact ⟨hne, h.1, h.2.2.2.2 hne⟩

/-! ## Plan projections of `send_loot_items_individually` -/

/-- A `filterMap` of a composed selector that always succeeds is the
identity. -/
theorem filterMap_comp_some (f : β → γ) (fn : γ → Option β)
    (h : ∀ b, fn (f b) = some b) (l : List β) : (l.map f).filterMap fn = l := by
  induction l with
  | nil => rfl
  | cons x xs ih => simp [List.filterMap_cons, h, ih]

/-- A `filterMap` of a composed selector that always fails is empty. -/
theorem filterMap_comp_none (f : β → γ) (fn : γ → Option δ)
    (h : ∀ b, fn (f b) = none) (l : List β) : (l.map f).filterMap fn = [] := by
  induction l with
  | nil => rfl
  | cons x xs ih => simp [List.filterMap_cons, h, ih]

/-- Media caption parameters contributed by one kind's action/send pairs:
one copy of the shared caption parameter per item. -/
theorem mediaCaptions_media_part (act : ChatAction) (ty : LootType)
    (cap : Option (String × Bool)) (l : List α) :
    mediaCaptions ((l.map fun v => [SendOp.action act, SendOp.media ty v cap]).flatten)
      = List.replicate l.length cap := by
  induction l with
  | nil => rfl
  | cons x xs ih =>
    simp only [List.map_cons, List.flatten_cons, mediaCaptions, List.filterMap_append] at ih ⊢
    simp [List.filterMap_cons, ih, List.replicate_succ]

/-- Action/send pairs contribute no standalone text messages. -/
theorem textContents_media_part (act : ChatAction) (ty : LootType)
    (cap : Option (String × Bool)) (l : List α) :
    textContents ((l.map fun v => [SendOp.action act, SendOp.media ty v cap]).flatten)
      = [] := by
  induction l with
  | nil => rfl
  | cons x xs ih =>
    simp only [List.map_cons, List.flatten_cons, textContents, List.filterMap_append] at ih ⊢
    simp [List.filterMap_cons, ih]

/-- The standalone messages of `send_potentially_collapsed_text` carry
exactly the `smart_split` pieces of the text. -/
theorem textContents_collapsed_text (split : String → List String) (ca : Nat) (t : String) :
    textContents (send_potentially_collapsed_text (α := α) split ca t) = split t := by
  unfold send_potentially_collapsed_text textContents
  generalize split t = l
  induction l with
  | nil => rfl
  | cons x xs ih => simp [List.filterMap_cons, ih]

/-- `send_potentially_collapsed_text` contributes no media sends. -/
theorem mediaCaptions_collapsed_text (split : String → List String) (ca : Nat) (t : String) :
    mediaCaptions (send_potentially_collapsed_text (α := α) split ca t) = [] := by
  unfold send_potentially_collapsed_text mediaCaptions
  generalize split t = l
  induction l with
  | nil => rfl
  | cons x xs ih => simp [List.filterMap_cons, ih]

/-- The text loop contributes no media sends. -/
theorem mediaCaptions_text_part (split : String → List String) (ca : Nat)
    (act : ChatAction) (texts : List String) :
    mediaCaptions ((texts.map fun t => SendOp.action (α := α) act
        :: send_potentially_collapsed_text split ca t).flatten) = [] := by
  induction texts with
  | nil => rfl
  | cons x xs ih =>
    simp only [List.map_cons, List.flatten_cons, mediaCaptions,
      List.filterMap_append, List.filterMap_cons] at ih ⊢
    rw [ih]
    have hx := mediaCaptions_collapsed_text (α := α) split ca x
    unfold mediaCaptions at hx
    simp [hx]

/-- The text loop contributes the split pieces of each text item, in
order. -/
theorem textContents_text_part (split : String → List String) (ca : Nat)
    (act : ChatAction) (texts : List String) :
    textContents ((texts.map fun t => SendOp.action (α := α) act
        :: send_potentially_collapsed_text split ca t).flatten)
      = (texts.map split).flatten := by
  induction texts with
  | nil => rfl
  | cons x xs ih =>
    simp only [List.map_cons, List.flatten_cons, textContents,
      List.filterMap_append, List.filterMap_cons] at ih ⊢
    rw [ih]
    have hx := textContents_collapsed_text (α := α) split ca x
    unfold textContents at hx
    simp [hx]

/-- Three blocks of copies of one value concatenate to the singleton when
the counts sum to one. -/
theorem replicate_three_eq_singleton {a b c : Nat} (h : a + b + c = 1) (x : γ) :
    List.replicate a x ++ List.replicate b x ++ List.replicate c x = [x] := by
  rw [← List.replicate_add, ← List.replicate_add, h]
  rfl

/-- **C5**: in a batch with exactly one media item and one accompanying
text fragment, `send_loot_items_individually` attaches the fragment as the
item's caption and sends no standalone text message when the fragment fits
the caption ceiling; when it exceeds the ceiling, the item is sent with no
caption and the fragment goes out as standalone messages whose contents
(before the collapse wrapper) concatenate back to the fragment, provided
the splitter reassembles (`smart_split` splits into consecutive substrings). -/
theorem caption_placement (split : String → List String)
    (hsplit : ∀ s, String.join (split s) = s)
    (collapse_at max_caption : Nat) (loot : LootItems α) (t : String)
    (hone : loot.video.length + loot.image.length + loot.audio.length = 1)
    (htext : loot.text = [t]) :
    (t.length ≤ max_caption →
        mediaCaptions (send_loot_items_individually split collapse_at max_caption loot)
            = [some (t, decide (collapse_at ≤ t.length))]
          ∧ textContents (send_loot_items_individually split collapse_at max_caption loot)
            = [])
      ∧ (max_caption < t.length →
          mediaCaptions (send_loot_items_individually split collapse_at max_caption loot)
              = [none]
            ∧ String.join (textContents
                (send_loot_items_individually split collapse_at max_caption loot)) = t) := by
  have hj : String.intercalate "\n\n" loot.text = t := by
    rw [htext]
    exact rfl
  constructor
  · intro hle
    have hcap : loot.video.length + loot.image.length + loot.audio.length = 1
        ∧ loot.text ≠ [] ∧ (String.intercalate "\n\n" loot.text).length ≤ max_caption :=
      ⟨hone, by simp [htext], by rw [hj]; exact hle⟩
    constructor
    · simp only [send_loot_items_individually, if_pos hcap, mediaCaptions,
        List.filterMap_append]
      rw [← mediaCaptions, ← mediaCaptions, ← mediaCaptions, ← mediaCaptions,
        mediaCaptions_media_part, mediaCaptions_media_part,
        mediaCaptions_text_part, mediaCaptions_media_part,
        List.append_nil, hj, replicate_three_eq_singleton hone]
    · simp only [send_loot_items_individually, if_pos hcap, textContents,
        List.filterMap_append]
      rw [← textContents, ← textContents, ← textContents, ← textContents,
        textContents_media_part, textContents_media_part, textContents_media_part,
        textContents_text_part]
      simp
  · intro hgt
    have hncap : ¬(loot.video.length + loot.image.length + loot.audio.length = 1
        ∧ loot.text ≠ [] ∧ (String.intercalate "\n\n" loot.text).length ≤ max_caption) := by
      rw [hj]
      intro hcontra
      omega
    constructor
    · simp only [send_loot_items_individually, if_neg hncap, mediaCaptions,
        List.filterMap_append]
      rw [← mediaCaptions, ← mediaCaptions, ← mediaCaptions, ← mediaCaptions,
        mediaCaptions_media_part, mediaCaptions_media_part,
        mediaCaptions_text_part, mediaCaptions_media_part,
        List.append_nil, replicate_three_eq_singleton hone]
    · simp only [send_loot_items_individually, if_neg hncap, textContents,
        List.filterMap_append]
      rw [← textContents, ← textContents, ← textContents, ← textContents,
        textContents_media_part, textContents_media_part, textContents_media_part,
        textContents_text_part, htext]
      simp [hsplit t]

/-- Witness for `caption_placement`: one video item with the short text
`"hi"` (within the default 1024 ceiling) gets it as caption and no
standalone text message, under the trivially reassembling splitter. -/
theorem caption_placement_witness :
    "hi".length ≤ 1024
      ∧ mediaCaptions (send_loot_items_individually (fun s => [s]) 300 1024
          (⟨[9], [], [], ["hi"]⟩ : LootItems Nat))
          = [some ("hi", decide (300 ≤ "hi".length))]
      ∧ textContents (send_loot_items_individually (fun s => [s]) 300 1024
          (⟨[9], [], [], ["hi"]⟩ : LootItems Nat)) = [] := by
  have h := caption_placement (fun s => [s]) (fun s => rfl) 300 1024
    (⟨[9], [], [], ["hi"]⟩ : LootItems Nat) "hi" (by decide) rfl
  have hle : "hi".length ≤ 1024 := by decide
  exact ⟨hle, (h.1 hle).1, (h.1 hle).2⟩

/-! ## Claim theorem for grouped sends -/

/-- A constant-valued map is pairwise nondecreasing. -/
theorem pairwise_le_map_const (a : Nat) (l : List β) :
    (l.map fun _ => a).Pairwise (· ≤ ·) := by
  induction l with
  | nil => exact List.Pairwise.nil
  | cons x xs ih =>
    refine List.Pairwise.cons ?_ ih
    intro y hy
    obtain ⟨b, -, hb⟩ := List.mem_map.mp hy
    exact hb ▸ Nat.le_refl a

/-- Members of a constant-valued map equal the constant. -/
theorem eq_of_mem_map_const {a : Nat} {l : List β} {x : Nat}
    (hx : x ∈ l.map fun _ => a) : x = a := by
  obtain ⟨b, -, hb⟩ := List.mem_map.mp hx
  exact hb.symm

/-- **C10**: the media group assembled by `send_loot_items_as_media_group`
lists all image items first, then all video items, then all audio items,
each kind in input order, so the interleaved discovery order across kinds
is not preserved. -/
theorem media_group_order (loot : LootItems α) :
    (media_group_of loot).filterMap InputMedia.photoItem = loot.image
      ∧ (media_group_of loot).filterMap InputMedia.videoItem = loot.video
      ∧ (media_group_of loot).filterMap InputMedia.audioItem = loot.audio
      ∧ ((media_group_of loot).map InputMedia.kindRank).Pairwise (· ≤ ·) := by
  unfold media_group_of
  refine ⟨?_, ?_, ?_, ?_⟩
  · simp only [List.filterMap_append]
    rw [filterMap_comp_some InputMedia.photo InputMedia.photoItem (fun b => rfl),
      filterMap_comp_none InputMedia.video InputMedia.photoItem (fun b => rfl),
      filterMap_comp_none InputMedia.audio InputMedia.photoItem (fun b => rfl)]
    simp
  · simp only [List.filterMap_append]
    rw [filterMap_comp_none InputMedia.photo InputMedia.videoItem (fun b => rfl),
      filterMap_comp_some InputMedia.video InputMedia.videoItem (fun b => rfl),
      filterMap_comp_none InputMedia.audio InputMedia.videoItem (fun b => rfl)]
    simp
  · simp only [List.filterMap_append]
    rw [filterMap_comp_none InputMedia.photo InputMedia.audioItem (fun b => rfl),
      filterMap_comp_none InputMedia.video InputMedia.audioItem (fun b => rfl),
      filterMap_comp_some InputMedia.audio InputMedia.audioItem (fun b => rfl)]
    simp
  · rw [List.map_append, List.map_append, List.map_map, List.map_map, List.map_map]
    have h0 : (InputMedia.kindRank ∘ InputMedia.photo (α := α)) = fun _ => 0 := rfl
    have h1 : (InputMedia.kindRank ∘ InputMedia.video (α := α)) = fun _ => 1 := rfl
    have h2 : (InputMedia.kindRank ∘ InputMedia.audio (α := α)) = fun _ => 2 := rfl
    rw [h0, h1, h2]
    apply List.pairwise_append.mpr
    refine ⟨List.pairwise_append.mpr
      ⟨pairwise_le_map_const 0 _, pairwise_le_map_const 1 _, ?_⟩,
      pairwise_le_map_const 2 _, ?_⟩
    · intro x hx y hy
      rw [eq_of_mem_map_const hx, eq_of_mem_map_const hy]
      omega
    · intro x hx y hy
      rw [eq_of_mem_map_const hy]
      rcases List.mem_append.mp hx with h | h
      · rw [eq_of_mem_map_const h]
        omega
      · rw [eq_of_mem_map_const h]
        omega

/-! ## Claim theorems for the URL dispatcher and the probe -/

/-- **C1 fails as stated**: probe extensions `["jpg"]` map to the `image`
MIME family — neither video nor audio — yet `get_forced_url_handler`
returns the VideoHandler (`ytdlp_url_handler`), not the GenericHandler
(`gallerydl_url_handler`) the claim requires when no extension maps to a
video/audio family. -/
theorem forced_handler_counterexample :
    mime_family py_guess_file_type "jpg" = "image"
      ∧ get_forced_url_handler py_guess_file_type ["jpg"]
          ≠ Handler.gallerydl_url_handler := by
  constructor
  · decide
  · decide

/-- **C1 (amended)**: on the probe path (rule 3 and forced resolution),
`get_forced_url_handler` returns the GenericHandler exactly when the probe
returned no extensions; when it returned any, it returns the VideoHandler
family, picking the audio variant exactly when no extension maps to the
`video` MIME family and some extension maps to the `audio` family (an
unknown extension stands for itself as its family). -/
theorem forced_handler_amended (guess : String → Option String) (exts : List String) :
    (exts = [] → get_forced_url_handler guess exts = Handler.gallerydl_url_handler)
      ∧ (exts ≠ [] →
          (get_forced_url_handler guess exts = Handler.ytdlp_url_handler_audio
              ↔ ¬ "video" ∈ exts.map (mime_family guess)
                  ∧ "audio" ∈ exts.map (mime_family guess))
            ∧ (get_forced_url_handler guess exts = Handler.ytdlp_url_handler_audio
                ∨ get_forced_url_handler guess exts = Handler.ytdlp_url_handler)) := by
  unfold get_forced_url_handler
  constructor
  · intro h
    subst h
    rfl
  · intro hne
    have hemp : exts.isEmpty = false := by
      cases exts
      · exact absurd rfl hne
      · rfl
    rw [if_neg (by simp [hemp])]
    by_cases hc : ¬ "video" ∈ exts.map (mime_family guess)
        ∧ "audio" ∈ exts.map (mime_family guess)
    · rw [if_pos hc]
      exact ⟨⟨fun _ => hc, fun _ => rfl⟩, Or.inl rfl⟩
    · rw [if_neg hc]
      exact ⟨⟨fun h => Handler.noConfusion h, fun h => absurd h hc⟩, Or.inr rfl⟩

/-- Witness for `forced_handler_amended`: the probe extensions `["mp3"]`
map to the audio family only, so the audio variant is chosen. -/
theorem forced_handler_amended_witness :
    (["mp3"] : List String) ≠ []
      ∧ get_forced_url_handler py_guess_file_type ["mp3"]
          = Handler.ytdlp_url_handler_audio := by
  have h := (forced_handler_amended py_guess_file_type ["mp3"]).2 (by decide)
  exact ⟨by decide, h.1.mpr (by decide)⟩

/-- **C6 fails as stated**: with the stock MIME table (no mailcap, no
`.mkv` entry) inference yields no result on `"a.mkv"`, and the classifier
has no `.mkv` fallback: the path is not classified as video — it is
excluded from every kind. -/
theorem mkv_fallback_counterexample :
    py_guess_file_type "a.mkv" = none
      ∧ str_ends_with "a.mkv" ".mkv" = true
      ∧ loot_kinds py_guess_file_type "a.mkv" = [] := by
  refine ⟨rfl, by decide, by decide⟩

/-- **C6 (amended)**: the classifier follows MIME-type inference when it
yields a type (a path is collected under each kind whose name the inferred
type starts with); when inference yields nothing, only the `.description`
fallback exists and makes the file a text item; any other uninferred path —
a `.mkv` path included — is excluded from every kind. -/
theorem classifier_amended (guess : String → Option String) (path : String) :
    (∀ ft, guess path = some ft →
        ∀ t, t ∈ loot_kinds guess path ↔ str_starts_with ft (lootTypeStr t) = true)
      ∧ (guess path = none → str_ends_with path ".description" = true →
          loot_kinds guess path = [LootType.text])
      ∧ (guess path = none → str_ends_with path ".description" = false →
          loot_kinds guess path = []) := by
  refine ⟨?_, ?_, ?_⟩
  · intro ft hft t
    have hmem : t ∈ [LootType.video, LootType.audio, LootType.image, LootType.text] := by
      cases t <;> simp
    simp [loot_kinds, List.mem_filter, hmem, path_is_type, hft]
  · intro hnone hdesc
    simp [loot_kinds, path_is_type, hnone, hdesc, lootTypeStr,
      show str_starts_with "text" "video" = false from rfl,
      show str_starts_with "text" "audio" = false from rfl,
      show str_starts_with "text" "image" = false from rfl,
      show str_starts_with "text" "text" = true from rfl]
  · intro hnone hdesc
    simp [loot_kinds, path_is_type, hnone, hdesc]

/-- Witness for `classifier_amended`: an uninferred `.bin` path that is not
a `.description` sidecar is excluded from every kind. -/
theorem classifier_amended_witness :
    py_guess_file_type "a.bin" = none
      ∧ str_ends_with "a.bin" ".description" = false
      ∧ loot_kinds py_guess_file_type "a.bin" = [] :=
  ⟨rfl, by decide,
    (classifier_amended py_guess_file_type "a.bin").2.2 rfl (by decide)⟩

/-- **C7**: a URL matching the social-image-network (`insta`) pattern is
dispatched to the insta handler even when it also matches an unambiguous
family (video-sharing, direct video link, video platform, audio hosting):
rule 1 is tested first and the first matching rule wins. -/
theorem insta_priority (matched : PatternName → Bool) (guess : String → Option String)
    (exts : List String) (hinsta : matched PatternName.insta = true)
    (_hother : matches_any matched [PatternName.tiktok, PatternName.vreddit,
      PatternName.youtube, PatternName.vimeo, PatternName.soundcloud,
      PatternName.bandcamp] = true) :
    get_url_handler matched guess exts = some Handler.insta_url_handler := by
  unfold get_url_handler
  rw [if_pos]
  simp [matches_any, hinsta]

/-- Witness for `insta_priority`: a pattern valuation where both the insta
and the tiktok patterns match still dispatches to the insta handler. -/
theorem insta_priority_witness :
    ((fun p => p == PatternName.insta || p == PatternName.tiktok)
        PatternName.insta = true)
      ∧ matches_any (fun p => p == PatternName.insta || p == PatternName.tiktok)
          [PatternName.tiktok, PatternName.vreddit, PatternName.youtube,
            PatternName.vimeo, PatternName.soundcloud, PatternName.bandcamp] = true
      ∧ get_url_handler (fun p => p == PatternName.insta || p == PatternName.tiktok)
          (fun _ => none) [] = some Handler.insta_url_handler :=
  ⟨by decide, by decide,
    insta_priority (fun p => p == PatternName.insta || p == PatternName.tiktok)
      (fun _ => none) [] (by decide) (by decide)⟩

/-- **C8**: the probe fails closed on the well-known not-found condition
and propagates every other backend error: when every backend attempt
reports `DownloadError`, the probe returns the empty extension list; an
unexpected error on the first attempt propagates; and, with cookies
configured, an unexpected error on the cookie-free retry after a not-found
propagates as well. -/
theorem probe_not_found_fails_closed (hasCookies : Bool)
    (extract : Bool → ExtractOutcome ε) :
    ((∀ b, extract b = ExtractOutcome.notFound) →
        ytdlp_get_extensions hasCookies extract false = Except.ok [])
      ∧ (∀ e, extract false = ExtractOutcome.failure e →
          ytdlp_get_extensions hasCookies extract false = Except.error e)
      ∧ (∀ e, hasCookies = true → extract false = ExtractOutcome.notFound →
          extract true = ExtractOutcome.failure e →
          ytdlp_get_extensions hasCookies extract false = Except.error e) := by
  refine ⟨?_, ?_, ?_⟩
  · intro h
    cases hck : hasCookies <;> simp [ytdlp_get_extensions, h]
  · intro e he
    simp [ytdlp_get_extensions, he]
  · intro e hck hnf hf
    subst hck
    simp [ytdlp_get_extensions, hnf, hf]

/-- Witness for `probe_not_found_fails_closed`: a backend that always
reports not-found makes the probe return the empty list even with cookies
configured. -/
theorem probe_not_found_fails_closed_witness :
    ((fun _ => ExtractOutcome.notFound : Bool → ExtractOutcome Unit) false
        = ExtractOutcome.notFound)
      ∧ ytdlp_get_extensions true
          (fun _ => (ExtractOutcome.notFound : ExtractOutcome Unit)) false
          = Except.ok [] :=
  ⟨rfl, (probe_not_found_fails_closed true
    (fun _ => (ExtractOutcome.notFound : ExtractOutcome Unit))).1 fun _ => rfl⟩

end MouseRanDown
